import Mathlib

/-!
Shallow embedding of the Chat Mention Triage Engine of `gwsa`
(`get_chat_mentions` and its helper `_analyze_message` in
`src/gwsa/sdk/chat/triage.py`), together with theorems checking the
natural-language specification of that subsystem against the code.

Modelling conventions:
* RFC 3339 timestamps are modelled as integer seconds (UTC); the affine
  reparametrisation preserves every comparison the code performs.
* A missing dictionary key is an `Option` that is `none`; Python string
  truthiness (`None` and the empty string are falsy) is `pyFalsy`.
* The external Chat/People API surface consumed by the scan is a record of
  functions (`Ctx`); a call that may raise returns `Except Unit`.
-/

namespace Gwsa

/-- Seconds per day: `timedelta(days = d)` is `d * daySecs` seconds. -/
def daySecs : Int := 86400

/-- Stand-in for `datetime.min`, the value `_parse_api_time` returns for a
missing or empty timestamp: far before every timestamp used in a scan. -/
def minTime : Int := -(10 ^ 12)

/-- `_parse_api_time`: a present timestamp parses to itself, a missing one
to `datetime.min` (`minTime`). -/
def parseTime : Option Int → Int
  | some t => t
  | none => minTime

/-- Python truthiness of an optional string: `not x` holds for `None`
and for the empty string. -/
def pyFalsy : Option String → Bool
  | some s => s == ""
  | none => true

/-- One entry of the `tiers` configuration list:
`{'max_members': int | None, 'lookback_days': int}`. -/
structure Tier where
  max_members : Option Nat
  lookback_days : Int
  deriving DecidableEq

/-- The tier-matching loop of `get_chat_mentions` (triage.py lines 169-183):
walk the tier list in order and return the `lookback_days` of the first tier
whose `max_members` is `None` or at least the member count; `0` (the
initialisation of `lookback_days`) when no tier matches. -/
def resolveLookback : List Tier → Nat → Int
  | [], _ => 0
  | t :: rest, members =>
    match t.max_members with
    | none => t.lookback_days
    | some k => if members ≤ k then t.lookback_days else resolveLookback rest members

/-- Strict order on tiers used by the `tiers.sort` call: by `max_members`
ascending with `None` mapped to infinity. -/
def tierLT (a b : Tier) : Bool :=
  match a.max_members, b.max_members with
  | some x, some y => x < y
  | some _, none => true
  | none, _ => false

/-- Non-strict companion of `tierLT`. -/
def tierLEb (a b : Tier) : Bool := !(tierLT b a)

/-- The tier list is sorted ascending by `max_members` with `None` last
(adjacent-pair check, which the claims use as their hypothesis). -/
def tiersSortedB : List Tier → Bool
  | [] => true
  | [_] => true
  | a :: b :: rest => tierLEb a b && tiersSortedB (b :: rest)

/-- A tier accepts a member count when its bound is `None` or at least the
count (the condition of the matching loop, spelled as a predicate). -/
def tierMatches (members : Nat) (t : Tier) : Bool :=
  match t.max_members with
  | none => true
  | some k => members ≤ k

/-- Spec-side reading of tier resolution, written from the specification
text: the first tier (in list order) whose bound is `None` or at least the
member count. -/
def firstMatchingTier (tiers : List Tier) (members : Nat) : Option Tier :=
  tiers.find? (tierMatches members)

/-- Stable insertion into an ascending list: the new element goes after
every element it is not strictly below, matching Python list sort
stability. -/
def insertAsc {α : Type} (lt : α → α → Bool) (a : α) : List α → List α
  | [] => [a]
  | b :: l => if lt a b then a :: b :: l else b :: insertAsc lt a l

/-- Stable insertion sort (model of Python `list.sort`). -/
def isort {α : Type} (lt : α → α → Bool) (l : List α) : List α :=
  l.foldl (fun acc x => insertAsc lt x acc) []

/-- The default four-tier ladder of `get_chat_mentions`. -/
def defaultTiers : List Tier :=
  [⟨some 2, 14⟩, ⟨some 10, 5⟩, ⟨some 50, 2⟩, ⟨none, 1⟩]

theorem resolveLookback_eq_firstMatch (tiers : List Tier) (m : Nat) :
    resolveLookback tiers m =
      (match firstMatchingTier tiers m with
       | some t => t.lookback_days
       | none => 0) := by
  induction tiers with
  | nil => rfl
  | cons t rest ih =>
    unfold resolveLookback firstMatchingTier
    cases h : t.max_members with
    | none =>
      simp [List.find?, tierMatches, h]
    | some k =>
      by_cases hm : m ≤ k
      · simp [List.find?, tierMatches, h, hm]
      · simp [List.find?, tierMatches, h, hm]
        simpa [firstMatchingTier] using ih

/-- C1: for every tier list sorted ascending by `max_members` (`None`
last) and every member count, tier resolution returns the `lookback_days`
of the first tier whose `max_members` is `None` or at least the count, and
`0` when no tier matches. -/
theorem tier_resolution_first_match (tiers : List Tier) (m : Nat)
    (_hs : tiersSortedB tiers = true) :
    resolveLookback tiers m =
      (match firstMatchingTier tiers m with
       | some t => t.lookback_days
       | none => 0) :=
  resolveLookback_eq_firstMatch tiers m

/-- Witness for `tier_resolution_first_match` at the default tier ladder
and a member count of 3. -/
theorem tier_resolution_first_match_witness :
    tiersSortedB defaultTiers = true ∧
    resolveLookback defaultTiers 3 =
      (match firstMatchingTier defaultTiers 3 with
       | some t => t.lookback_days
       | none => 0) :=
  ⟨by decide, tier_resolution_first_match defaultTiers 3 (by decide)⟩

/-- Snapshot of one Chat space as returned by `spaces.list` with the field
mask `name,displayName,spaceType,lastActiveTime,membershipCount`.
`membershipCount` is a dictionary that, when present, optionally carries
`joinedDirectHumanUserCount` (the code defaults it to 2). -/
structure Space where
  name : String
  displayName : Option String
  spaceType : Option String
  lastActiveTime : Option Int
  membershipCount : Option (Option Nat)
  deriving DecidableEq

/-- Member-count computation of the candidate filter (triage.py lines
163-167): `joinedDirectHumanUserCount` when `membershipCount` is present
(defaulting to 2), else 2 for a direct message, else 0. -/
def memberCount (s : Space) : Nat :=
  match s.membershipCount with
  | some mc => mc.getD 2
  | none => if s.spaceType == some "DIRECT_MESSAGE" then 2 else 0

/-- Sort-priority computation (triage.py lines 189-196): 0 for a
direct-message space with at most 2 members, 1 for a direct-message space
with more, 2 for every other space type (the `spaceType` key defaults to
SPACE). -/
def typeScore (s : Space) (members : Nat) : Nat :=
  if s.spaceType.getD "SPACE" == "DIRECT_MESSAGE" then
    if members ≤ 2 then 0 else 1
  else 2

/-- A space that survived tier/recency filtering, annotated as in the
`candidates.append` call of the code. -/
structure Candidate where
  space : Space
  members : Nat
  last_active : Int
  lookback_days : Int
  type_score : Nat
  deriving DecidableEq

/-- The per-space body of the candidate filter (triage.py lines 162-204):
resolve the lookback tier, drop the space when no tier matches or the
matched lookback is not positive, drop it when its last activity is not
strictly after `now - lookback_days` days, otherwise annotate it. -/
def selectCandidate (now : Int) (tiers : List Tier) (s : Space) : Option Candidate :=
  let members := memberCount s
  let lookback := resolveLookback tiers members
  if lookback ≤ 0 then none
  else
    let last_active := parseTime s.lastActiveTime
    let cutoff := now - lookback * daySecs
    if cutoff < last_active then
      some ⟨s, members, last_active, lookback, typeScore s members⟩
    else none

/-- Candidate filtering over the discovered spaces. -/
def selectCandidates (now : Int) (tiers : List Tier) (spaces : List Space) : List Candidate :=
  spaces.filterMap (selectCandidate now tiers)

/-- Strict order on candidates used by `candidates.sort`: lexicographic on
`(type_score, members)`. -/
def candLT (a b : Candidate) : Bool :=
  a.type_score < b.type_score || (a.type_score == b.type_score && a.members < b.members)

/-- The ordered candidate list the scan loop consumes: tiers are sorted
once at scan start, candidates are filtered and then sorted by
`(type_score, members)` ascending. -/
def orderedCandidates (now : Int) (tiers : List Tier) (spaces : List Space) : List Candidate :=
  isort candLT (selectCandidates now (isort tierLT tiers) spaces)

theorem selectCandidate_some_fields (now : Int) (tiers : List Tier) (s : Space)
    (c : Candidate) (h : selectCandidate now tiers s = some c) :
    c.space = s ∧ c.members = memberCount s ∧
    c.type_score = typeScore s (memberCount s) := by
  unfold selectCandidate at h
  simp only at h
  split at h
  · exact absurd h (by simp)
  · split at h
    · cases h
      exact ⟨rfl, rfl, rfl⟩
    · exact absurd h (by simp)

/-- C6: a discovered space is excluded from the candidate list iff its
resolved lookback is not positive or its last activity is at or before
`now` minus the lookback window. -/
theorem space_exclusion_iff (now : Int) (tiers : List Tier) (s : Space) :
    selectCandidate now tiers s = none ↔
      (resolveLookback tiers (memberCount s) ≤ 0 ∨
       parseTime s.lastActiveTime ≤
         now - resolveLookback tiers (memberCount s) * daySecs) := by
  unfold selectCandidate
  simp only
  by_cases h1 : resolveLookback tiers (memberCount s) ≤ 0
  · simp [h1]
  · rw [if_neg h1]
    by_cases h2 :
        now - resolveLookback tiers (memberCount s) * daySecs < parseTime s.lastActiveTime
    · simp only [if_pos h2]
      constructor
      · intro h; exact absurd h (by simp)
      · intro h
        rcases h with h | h
        · exact absurd h h1
        · omega
    · simp only [if_neg h2]
      constructor
      · intro _
        right
        omega
      · intro _; trivial

/-- C5 (amended): every surviving candidate's `type_score` is 0 for a
direct message with at most two members, 1 for a direct message with more
than two members, and 2 for every other space type (including GROUP_CHAT). -/
theorem type_score_characterization (now : Int) (tiers : List Tier)
    (spaces : List Space) (c : Candidate)
    (hc : c ∈ selectCandidates now tiers spaces) :
    c.type_score =
      (if c.space.spaceType.getD "SPACE" = "DIRECT_MESSAGE" then
        (if c.members ≤ 2 then 0 else 1)
       else 2) := by
  rcases List.mem_filterMap.mp hc with ⟨s, _, hsel⟩
  rcases selectCandidate_some_fields now tiers s c hsel with ⟨hsp, hm, hts⟩
  rw [hts, hsp, hm]
  unfold typeScore
  by_cases hd : s.spaceType.getD "SPACE" = "DIRECT_MESSAGE"
  · simp [hd]
  · simp [hd]

/-- A USER_MENTION entry of a message's `annotations` list:
its `type` and the mentioned user's `userMention.user.name`. -/
structure MentionAnn where
  type : Option String
  mentionedUser : Option String
  deriving DecidableEq

/-- One Chat message as consumed by the walk: resource `name`,
`createTime`, `sender.name`, `sender.displayName`, `sender.email`, `text`
(missing text read as the empty string), annotations and `thread.name`. -/
structure Message where
  name : Option String
  createTime : Option Int
  senderName : Option String
  senderDisplayName : Option String
  senderEmail : Option String
  text : String
  annotations : List MentionAnn
  threadName : Option String
  deriving DecidableEq

/-- One reaction on a message: the reacting `user.name`. -/
structure Reaction where
  userName : Option String
  deriving DecidableEq

/-- The external API surface and per-scan identity the triage code consumes:
the caller's resolved id and first name, the `unanswered_only` and
`implicit_mention_threshold` configuration, message listing (pageSize is the
second argument), reaction listing, and People-API name resolution. A call
that may raise returns `Except Unit`. -/
structure Ctx where
  my_id : Option String
  my_display_name : Option String
  unanswered_only : Bool
  implicit_mention_threshold : Nat
  listMessages : String → Nat → Except Unit (List Message)
  listReactions : Option String → Except Unit (List Reaction)
  getPersonName : String → String

/-- Classification result of `_analyze_message`: the item type and reason. -/
structure Found where
  type : String
  reason : String
  deriving DecidableEq

/-- Python `pat in s` for a non-empty pattern. -/
def strContains (s pat : String) : Bool :=
  (s.splitOn pat).length != 1

/-- The annotation scan of `_analyze_message`: some annotation has type
USER_MENTION and, provided `my_id` is truthy, mentions exactly `my_id`. -/
def annotationsMentionMe (my_id : Option String) (anns : List MentionAnn) : Bool :=
  anns.any (fun a =>
    a.type == some "USER_MENTION" &&
      (match my_id with
       | some mid => !(mid == "") && a.mentionedUser == some mid
       | none => false))

/-- The text scan of `_analyze_message`: `my_display_name` is truthy and
`"@" ++ my_display_name` occurs in the message text. -/
def textMentionsMe (my_display_name : Option String) (text : String) : Bool :=
  match my_display_name with
  | some dn => !(dn == "") && strContains text ("@" ++ dn)
  | none => false

/-- `_analyze_message` (triage.py lines 105-142): in implicit mode any
message is actionable with type "Inferred" while the caller has not
responded; otherwise the message must mention the caller (annotation or
text) and the caller must not have responded, yielding type "Explicit". -/
def analyzeMessage (ctx : Ctx) (msg : Message)
    (is_implicit i_have_responded : Bool) : Option Found :=
  if is_implicit then
    if !i_have_responded then some ⟨"Inferred", "Unreplied message"⟩ else none
  else
    if (annotationsMentionMe ctx.my_id msg.annotations ||
        textMentionsMe ctx.my_display_name msg.text) && !i_have_responded then
      some ⟨"Explicit", "Explicit mention"⟩
    else none

/-- One emitted actionable item, as appended to `results`. -/
structure ActionableItem where
  type : String
  space : String
  space_id : String
  members : Nat
  thread_name : Option String
  time : Option Int
  sender : String
  text : String
  reason : String
  deriving DecidableEq

/-- The space fields the walk needs to build an item: the display name
after the "Unknown Space" fallback, the space id, and the member count. -/
structure SpInfo where
  display : String
  space_id : String
  members : Nat
  deriving DecidableEq

/-- The sender-name fallback chain run before an item is emitted:
`sender.displayName`, then a People-API lookup when the sender id is
truthy, then the sender email, then the literal "Unknown". -/
def resolveSenderName (ctx : Ctx) (m : Message) : String :=
  let f0 := m.senderDisplayName
  let f1 := if pyFalsy f0 then
      (match m.senderName with
       | some sid => if sid == "" then f0 else some (ctx.getPersonName sid)
       | none => f0)
    else f0
  let f2 := if pyFalsy f1 || f1 == some "Unknown" then
      (match m.senderEmail with
       | some e => if e == "" then f1 else some e
       | none => f1)
    else f1
  if pyFalsy f2 then "Unknown" else f2.getD "Unknown"

/-- The `results.append` record for an actionable message. -/
def mkItem (ctx : Ctx) (sp : SpInfo) (m : Message) (f : Found) : ActionableItem :=
  { type := f.type, space := sp.display, space_id := sp.space_id,
    members := sp.members, thread_name := m.threadName, time := m.createTime,
    sender := resolveSenderName ctx m, text := m.text.take 100,
    reason := f.reason }

/-- Observable outcome of walking one space's messages: the per-space stat
counters it contributes, the number of reaction-listing calls it issued,
and the emitted item if any. -/
structure WalkOut where
  in_range : Nat
  mentions_found : Nat
  unanswered : Nat
  reaction_calls : Nat
  item : Option ActionableItem
  deriving DecidableEq

/-- The newest-to-oldest message walk of one candidate space (triage.py
lines 277-356): skip messages older than the cutoff; on a message of the
caller set `i_have_responded` and, under `unanswered_only`, stop the space
at once; otherwise classify the message, under `unanswered_only` issue one
reaction-listing call for an actionable message and discard it when the
caller reacted (keeping it when the call fails), and emit at most one item,
stopping the walk on emission. -/
def walkMessages (ctx : Ctx) (sp : SpInfo) (cutoff : Int) (is_implicit : Bool) :
    Bool → List Message → WalkOut
  | _, [] => ⟨0, 0, 0, 0, none⟩
  | ihr, m :: rest =>
    if parseTime m.createTime < cutoff then
      walkMessages ctx sp cutoff is_implicit ihr rest
    else if m.senderName == ctx.my_id then
      (if ctx.unanswered_only then ⟨1, 0, 0, 0, none⟩
       else
        let w := walkMessages ctx sp cutoff is_implicit true rest
        ⟨w.in_range + 1, w.mentions_found, w.unanswered, w.reaction_calls, w.item⟩)
    else
      match analyzeMessage ctx m is_implicit ihr with
      | none =>
        let w := walkMessages ctx sp cutoff is_implicit ihr rest
        ⟨w.in_range + 1, w.mentions_found, w.unanswered, w.reaction_calls, w.item⟩
      | some f =>
        if ctx.unanswered_only then
          match ctx.listReactions m.name with
          | .error _ => ⟨1, 1, 1, 1, some (mkItem ctx sp m f)⟩
          | .ok rs =>
            if rs.any (fun r => r.userName == ctx.my_id) then
              let w := walkMessages ctx sp cutoff is_implicit ihr rest
              ⟨w.in_range + 1, w.mentions_found + 1, w.unanswered,
               w.reaction_calls + 1, w.item⟩
            else ⟨1, 1, 1, 1, some (mkItem ctx sp m f)⟩
        else ⟨1, 1, 1, 0, some (mkItem ctx sp m f)⟩

/-- Per-space scan statistics record (`current_space_stat`). -/
structure SpaceStat where
  id : String
  name : String
  type : Option String
  members : Nat
  last_active : Int
  lookback_days : Int
  messages_scanned : Nat
  messages_in_range : Nat
  mentions_found : Nat
  unanswered_mentions : Nat
  deriving DecidableEq

/-- The stat record as initialised before a space is processed:
counters at zero, the display name defaulted to "Unknown" when falsy. -/
def baseStat (c : Candidate) : SpaceStat :=
  { id := c.space.name,
    name := if pyFalsy c.space.displayName then "Unknown"
            else c.space.displayName.getD "Unknown",
    type := c.space.spaceType, members := c.members,
    last_active := c.last_active, lookback_days := c.lookback_days,
    messages_scanned := 0, messages_in_range := 0, mentions_found := 0,
    unanswered_mentions := 0 }

/-- Observable outcome of processing one candidate space: its stat record,
its emitted item if any, and the message-fetch / reaction-listing calls it
issued. -/
structure SpaceScanOut where
  stat : SpaceStat
  item : Option ActionableItem
  msg_fetch_calls : Nat
  reaction_calls : Nat
  deriving DecidableEq

/-- Processing of one candidate space inside the scan loop (triage.py
lines 228-362): an implicit-size space is skipped (stat recorded, nothing
fetched) when the caller's id is unknown; otherwise one message-list call
fetches 1 message for an implicit space and up to 20 otherwise; a fetch
failure is caught, recording the partial stat; a successful fetch is
walked by `walkMessages`. -/
def scanSpace (ctx : Ctx) (now : Int) (c : Candidate) : SpaceScanOut :=
  let is_implicit := decide (c.members ≤ ctx.implicit_mention_threshold)
  if is_implicit && pyFalsy ctx.my_id then
    ⟨baseStat c, none, 0, 0⟩
  else
    let fetch_limit := if is_implicit then 1 else 20
    match ctx.listMessages c.space.name fetch_limit with
    | .error _ => ⟨baseStat c, none, 1, 0⟩
    | .ok messages =>
      let cutoff := now - c.lookback_days * daySecs
      let display := if pyFalsy c.space.displayName then "Unknown Space"
                     else c.space.displayName.getD "Unknown Space"
      let w := walkMessages ctx ⟨display, c.space.name, c.members⟩ cutoff
                 is_implicit false messages
      ⟨{ baseStat c with
           messages_scanned := messages.length, messages_in_range := w.in_range,
           mentions_found := w.mentions_found, unanswered_mentions := w.unanswered },
       w.item, 1, w.reaction_calls⟩

/-- Aggregate outcome of the candidate loop: the per-space stats in order,
the emitted items in order, the final global message count and the exit
reason. -/
structure LoopOut where
  stats : List SpaceStat
  items : List ActionableItem
  total : Nat
  exit_reason : String
  deriving DecidableEq

/-- The candidate loop of the scan (triage.py lines 210-362): before each
candidate, stop with "space_limit_reached" when the number of spaces
already scanned has reached the space limit, else with
"message_limit_reached" when the global message count has reached the
message limit; otherwise process the candidate, append its stat, its item
if any, and its scanned-message count, and continue; exhausting the
candidates yields "completed". `n` is the number of stats recorded so far
and `total` the global message count so far. -/
def scanLoop (ctx : Ctx) (now : Int) (limit message_limit : Nat) :
    Nat → Nat → List Candidate → LoopOut
  | _, total, [] => ⟨[], [], total, "completed"⟩
  | n, total, c :: rest =>
    if limit ≤ n then ⟨[], [], total, "space_limit_reached"⟩
    else if message_limit ≤ total then ⟨[], [], total, "message_limit_reached"⟩
    else
      let out := scanSpace ctx now c
      let w := scanLoop ctx now limit message_limit (n + 1)
                 (total + out.stat.messages_scanned) rest
      ⟨out.stat :: w.stats, out.item.toList ++ w.items, w.total, w.exit_reason⟩

/-- The `source` block of the returned dictionary. -/
structure ScanSource where
  spaces : List SpaceStat
  total_spaces_scanned : Nat
  total_messages_scanned : Nat
  exit_reason : String
  deriving DecidableEq

/-- The dictionary `get_chat_mentions` returns (module-level API-call
counters aside). -/
structure ScanResult where
  mentions : List ActionableItem
  source : ScanSource
  scanned_count : Nat
  total_count : Nat
  deriving DecidableEq

/-- `get_chat_mentions` over an already-discovered space list (space
discovery is paginated pass-through listing, absorbed here into the
`all_spaces` argument): sort the tiers, filter and order the candidates,
run the budgeted candidate loop, and package the result. -/
def getChatMentions (ctx : Ctx) (now : Int) (limit message_limit : Nat)
    (tiers : List Tier) (all_spaces : List Space) : ScanResult :=
  let ordered := orderedCandidates now tiers all_spaces
  let out := scanLoop ctx now limit message_limit 0 0 ordered
  { mentions := out.items,
    source := { spaces := out.stats, total_spaces_scanned := out.stats.length,
                total_messages_scanned := out.total,
                exit_reason := out.exit_reason },
    scanned_count := ordered.length,
    total_count := all_spaces.length }

/-- A reference instant for concrete scans: 1000 days after the epoch. -/
def nowEx : Int := 86400 * 1000

/-- A recently active two-person direct message. -/
def spDM : Space :=
  ⟨"spaces/dm1", some "Bob DM", some "DIRECT_MESSAGE", some (nowEx - 100), none⟩

/-- A recently active five-member space of type GROUP_CHAT. -/
def spGroup : Space :=
  ⟨"spaces/g1", some "Team Group", some "GROUP_CHAT", some (nowEx - 100),
   some (some 5)⟩

/-- A recent message from another user in the direct message. -/
def msgBob : Message :=
  ⟨some "spaces/dm1/messages/m1", some (nowEx - 200), some "users/bob",
   some "Bob", none, "hello", [], some "spaces/dm1/threads/t1"⟩

/-- A concrete scan context: resolved identity, `unanswered_only` set, the
default implicit threshold, one fetched message and no reactions. -/
def ctxEx : Ctx :=
  { my_id := some "users/me", my_display_name := some "Alice",
    unanswered_only := true, implicit_mention_threshold := 3,
    listMessages := fun _ _ => .ok [msgBob],
    listReactions := fun _ => .ok [],
    getPersonName := fun _ => "Someone" }

/-- The candidate the five-member GROUP_CHAT space becomes. -/
def candGroup : Candidate := ⟨spGroup, 5, nowEx - 100, 5, 2⟩

/-- The item the scan of `spDM` under `ctxEx` emits. -/
def itemEx : ActionableItem :=
  ⟨"Inferred", "Bob DM", "spaces/dm1", 2, some "spaces/dm1/threads/t1",
   some (nowEx - 200), "Bob", "hello", "Unreplied message"⟩

/-- C5 counterexample: a surviving candidate of space type GROUP_CHAT with
five members has `type_score` 2, where the claim demands 1 for a small
group such as GROUP_CHAT. -/
theorem type_score_counterexample :
    (selectCandidates nowEx (isort tierLT defaultTiers) [spGroup]).map
      (fun c => (c.space.spaceType, c.members, c.type_score)) =
      [(some "GROUP_CHAT", 5, 2)] ∧ (2 : Nat) ≠ 1 :=
  ⟨by decide, by decide⟩

/-- Witness for `type_score_characterization` at the GROUP_CHAT candidate. -/
theorem type_score_characterization_witness :
    candGroup ∈ selectCandidates nowEx (isort tierLT defaultTiers) [spGroup] ∧
    candGroup.type_score =
      (if candGroup.space.spaceType.getD "SPACE" = "DIRECT_MESSAGE" then
        (if candGroup.members ≤ 2 then 0 else 1)
       else 2) :=
  ⟨by decide,
   type_score_characterization nowEx (isort tierLT defaultTiers) [spGroup]
     candGroup (by decide)⟩

theorem analyzeMessage_some_type (ctx : Ctx) (m : Message) (impl ihr : Bool)
    (f : Found) (h : analyzeMessage ctx m impl ihr = some f) :
    f.type = (if impl then "Inferred" else "Explicit") := by
  unfold analyzeMessage at h
  cases impl with
  | true =>
    rw [if_pos rfl] at h
    split at h
    · injection h with h
      rw [← h]
      rfl
    · exact Option.noConfusion h
  | false =>
    rw [if_neg (by simp)] at h
    split at h
    · injection h with h
      rw [← h]
      rfl
    · exact Option.noConfusion h

theorem walk_item_type (ctx : Ctx) (sp : SpInfo) (cutoff : Int) (impl : Bool) :
    ∀ (ihr : Bool) (ms : List Message) (it : ActionableItem),
      (walkMessages ctx sp cutoff impl ihr ms).item = some it →
      it.type = (if impl then "Inferred" else "Explicit") ∧
      it.members = sp.members := by
  intro ihr ms
  induction ms generalizing ihr with
  | nil => intro it h; exact absurd h (by simp [walkMessages])
  | cons m rest ih =>
    intro it h
    rw [walkMessages] at h
    split at h
    · exact ih ihr it h
    · split at h
      · split at h
        · exact Option.noConfusion h
        · exact ih true it h
      · cases hf : analyzeMessage ctx m impl ihr with
        | none =>
          rw [hf] at h
          dsimp only at h
          exact ih ihr it h
        | some f =>
          rw [hf] at h
          dsimp only at h
          split at h
          · cases hr : ctx.listReactions m.name with
            | error e =>
              rw [hr] at h
              dsimp only at h
              injection h with h
              rw [← h]
              exact ⟨analyzeMessage_some_type ctx m impl ihr f hf, rfl⟩
            | ok rs =>
              rw [hr] at h
              dsimp only at h
              split at h
              · exact ih ihr it h
              · dsimp only at h
                injection h with h
                rw [← h]
                exact ⟨analyzeMessage_some_type ctx m impl ihr f hf, rfl⟩
          · dsimp only at h
            injection h with h
            rw [← h]
            exact ⟨analyzeMessage_some_type ctx m impl ihr f hf, rfl⟩

theorem scanSpace_item_type (ctx : Ctx) (now : Int) (c : Candidate)
    (it : ActionableItem) (h : (scanSpace ctx now c).item = some it) :
    it.type =
      (if c.members ≤ ctx.implicit_mention_threshold then "Inferred"
       else "Explicit") ∧
    it.members = c.members := by
  unfold scanSpace at h
  simp only at h
  split at h
  · exact absurd h (by simp)
  · split at h
    · exact absurd h (by simp)
    · have hw := walk_item_type ctx _ _ (decide (c.members ≤ ctx.implicit_mention_threshold)) false _ it h
      rcases hw with ⟨ht, hm⟩
      refine ⟨?_, hm⟩
      rw [ht]
      by_cases hc : c.members ≤ ctx.implicit_mention_threshold
      · simp [hc]
      · simp [hc]

theorem scanLoop_items_sourced (ctx : Ctx) (now : Int) (limit mlimit : Nat) :
    ∀ (cands : List Candidate) (n t : Nat) (it : ActionableItem),
      it ∈ (scanLoop ctx now limit mlimit n t cands).items →
      ∃ c, c ∈ cands ∧ (scanSpace ctx now c).item = some it := by
  intro cands
  induction cands with
  | nil => intro n t it h; simp [scanLoop] at h
  | cons c rest ih =>
    intro n t it h
    rw [scanLoop] at h
    split at h
    · simp at h
    · split at h
      · simp at h
      · simp only at h
        rcases List.mem_append.mp h with h1 | h2
        · refine ⟨c, by simp, ?_⟩
          cases ho : (scanSpace ctx now c).item with
          | none => rw [ho] at h1; simp at h1
          | some x =>
            rw [ho] at h1
            simp only [Option.toList_some, List.mem_singleton] at h1
            subst h1
            rfl
        · rcases ih (n + 1) (t + (scanSpace ctx now c).stat.messages_scanned) it h2 with
            ⟨c', hc', hi⟩
          exact ⟨c', by simp [hc'], hi⟩

/-- C4 (amended): every emitted item has type "Inferred" or "Explicit":
"Inferred" when the space's member count is at most the
`implicit_mention_threshold`, "Explicit" otherwise. -/
theorem actionable_type_inferred_or_explicit (ctx : Ctx) (now : Int)
    (limit mlimit : Nat) (tiers : List Tier) (spaces : List Space)
    (it : ActionableItem)
    (hit : it ∈ (getChatMentions ctx now limit mlimit tiers spaces).mentions) :
    it.type =
      (if it.members ≤ ctx.implicit_mention_threshold then "Inferred"
       else "Explicit") := by
  have hmem : it ∈
      (scanLoop ctx now limit mlimit 0 0 (orderedCandidates now tiers spaces)).items :=
    hit
  rcases scanLoop_items_sourced ctx now limit mlimit _ 0 0 it hmem with ⟨c, _, hi⟩
  rcases scanSpace_item_type ctx now c it hi with ⟨ht, hm⟩
  rw [ht, hm]

set_option maxRecDepth 10000 in
/-- C4 counterexample: the concrete scan of the small direct message
emits an item of type "Inferred", which is neither "Implicit" nor
"Explicit" as the claim demands. -/
theorem actionable_type_counterexample :
    (getChatMentions ctxEx nowEx 20 100 defaultTiers [spDM]).mentions.map
      (fun i => i.type) = ["Inferred"] ∧
    ¬("Inferred" = "Implicit" ∨ "Inferred" = "Explicit") :=
  ⟨by decide, by decide⟩

set_option maxRecDepth 10000 in
/-- Witness for `actionable_type_inferred_or_explicit` at the concrete
scan of the small direct message. -/
theorem actionable_type_inferred_or_explicit_witness :
    itemEx ∈ (getChatMentions ctxEx nowEx 20 100 defaultTiers [spDM]).mentions ∧
    itemEx.type =
      (if itemEx.members ≤ ctxEx.implicit_mention_threshold then "Inferred"
       else "Explicit") :=
  ⟨by decide,
   actionable_type_inferred_or_explicit ctxEx nowEx 20 100 defaultTiers [spDM]
     itemEx (by decide)⟩

/-- The fetched message list is ordered newest first, the guarantee of the
`orderBy="createTime desc"` parameter of the message-list call
(adjacent-pair check). -/
def sortedByTimeDescB : List Message → Bool
  | [] => true
  | [_] => true
  | a :: b :: rest =>
    decide (parseTime b.createTime ≤ parseTime a.createTime) &&
      sortedByTimeDescB (b :: rest)

theorem sortedByTimeDescB_tail (a : Message) (ms : List Message)
    (h : sortedByTimeDescB (a :: ms) = true) : sortedByTimeDescB ms = true := by
  cases ms with
  | nil => rfl
  | cons b rest =>
    unfold sortedByTimeDescB at h
    rw [Bool.and_eq_true] at h
    exact h.2

theorem sortedByTimeDescB_head (m : Message) (ms : List Message)
    (h : sortedByTimeDescB (m :: ms) = true) :
    ∀ x ∈ ms, parseTime x.createTime ≤ parseTime m.createTime := by
  induction ms generalizing m with
  | nil => intro x hx; cases hx
  | cons b rest ih =>
    intro x hx
    unfold sortedByTimeDescB at h
    rw [Bool.and_eq_true] at h
    rcases h with ⟨h1, h2⟩
    have hbm : parseTime b.createTime ≤ parseTime m.createTime :=
      of_decide_eq_true h1
    rcases List.mem_cons.mp hx with rfl | hx'
    · exact hbm
    · exact le_trans (ih b h2 x hx') hbm

theorem walk_all_old (ctx : Ctx) (sp : SpInfo) (cutoff : Int) (impl : Bool) :
    ∀ (ihr : Bool) (ms : List Message),
      (∀ m ∈ ms, parseTime m.createTime < cutoff) →
      walkMessages ctx sp cutoff impl ihr ms = ⟨0, 0, 0, 0, none⟩ := by
  intro ihr ms
  induction ms generalizing ihr with
  | nil => intro _; rfl
  | cons m rest ih =>
    intro h
    rw [walkMessages, if_pos (h m (by simp))]
    exact ih ihr fun x hx => h x (List.mem_cons_of_mem m hx)

/-- C3: under `unanswered_only`, once the walk reaches a message of the
caller, the walk of the whole (newest-first) list is the walk of the list
truncated right after that message — every older message is irrelevant and
no item is emitted from the remainder — and when that message is within
the lookback window the walk stops there with no item at all. -/
theorem self_message_halts_walk (ctx : Ctx) (sp : SpInfo) (cutoff : Int)
    (impl : Bool) (m : Message) (ms₁ ms₂ : List Message)
    (hu : ctx.unanswered_only = true)
    (hsorted : sortedByTimeDescB (ms₁ ++ m :: ms₂) = true)
    (hme : m.senderName = ctx.my_id) :
    walkMessages ctx sp cutoff impl false (ms₁ ++ m :: ms₂) =
      walkMessages ctx sp cutoff impl false (ms₁ ++ [m]) ∧
    (¬ parseTime m.createTime < cutoff →
      ∀ (ihr : Bool) (rest : List Message),
        walkMessages ctx sp cutoff impl ihr (m :: rest) = ⟨1, 0, 0, 0, none⟩) := by
  have hbeq : (m.senderName == ctx.my_id) = true := by
    rw [hme]
    exact beq_self_eq_true ctx.my_id
  constructor
  · have key : ∀ (l : List Message), sortedByTimeDescB (l ++ m :: ms₂) = true →
        ∀ ihr, walkMessages ctx sp cutoff impl ihr (l ++ m :: ms₂) =
          walkMessages ctx sp cutoff impl ihr (l ++ [m]) := by
      intro l
      induction l with
      | nil =>
        intro hs ihr
        simp only [List.nil_append]
        by_cases hold : parseTime m.createTime < cutoff
        · rw [walkMessages, if_pos hold]
          rw [walkMessages, if_pos hold]
          rw [walk_all_old ctx sp cutoff impl ihr ms₂
              (fun x hx => lt_of_le_of_lt (sortedByTimeDescB_head m ms₂ hs x hx) hold)]
          rfl
        · rw [walkMessages, if_neg hold, hbeq]
          rw [walkMessages, if_neg hold, hbeq]
          rw [if_pos rfl, if_pos rfl, if_pos hu, if_pos hu]
      | cons a l ihl =>
        intro hs ihr
        have hs' : sortedByTimeDescB (l ++ m :: ms₂) = true :=
          sortedByTimeDescB_tail a _ hs
        simp only [List.cons_append]
        rw [walkMessages]
        conv_rhs => rw [walkMessages]
        by_cases h1 : parseTime a.createTime < cutoff
        · rw [if_pos h1, if_pos h1]
          exact ihl hs' ihr
        · rw [if_neg h1, if_neg h1]
          by_cases h2 : (a.senderName == ctx.my_id) = true
          · rw [h2, if_pos rfl, if_pos rfl, if_pos hu, if_pos hu]
          · have h2f : (a.senderName == ctx.my_id) = false :=
              Bool.not_eq_true _ ▸ Bool.of_not_eq_true h2
            rw [h2f]
            rw [if_neg (by simp), if_neg (by simp)]
            cases hf : analyzeMessage ctx a impl ihr with
            | none =>
              dsimp only
              rw [ihl hs' ihr]
            | some f =>
              dsimp only
              rw [if_pos hu, if_pos hu]
              cases hr : ctx.listReactions a.name with
              | error e => rfl
              | ok rs =>
                dsimp only
                by_cases hany : (rs.any fun r => r.userName == ctx.my_id) = true
                · rw [if_pos hany, if_pos hany]
                  rw [ihl hs' ihr]
                · rw [if_neg hany, if_neg hany]
    exact key ms₁ hsorted false
  · intro hin ihr rest
    rw [walkMessages, if_neg hin, hbeq, if_pos rfl, if_pos hu]

/-- Space info for direct walk-level witnesses. -/
def spEx : SpInfo := ⟨"Bob DM", "spaces/dm1", 2⟩

/-- A recent message sent by the caller. -/
def msgMine : Message :=
  ⟨some "spaces/dm1/messages/m2", some 5, some "users/me", some "Alice",
   none, "on it", [], none⟩

/-- An older message from another user. -/
def msgOld : Message :=
  ⟨some "spaces/dm1/messages/m3", some 3, some "users/bob", some "Bob",
   none, "ping", [], none⟩

/-- Witness for `self_message_halts_walk`: a caller message followed by an
older message from someone else. -/
theorem self_message_halts_walk_witness :
    ctxEx.unanswered_only = true ∧
    sortedByTimeDescB ([] ++ msgMine :: [msgOld]) = true ∧
    msgMine.senderName = ctxEx.my_id ∧
    (walkMessages ctxEx spEx 0 true false ([] ++ msgMine :: [msgOld]) =
       walkMessages ctxEx spEx 0 true false ([] ++ [msgMine]) ∧
     (¬ parseTime msgMine.createTime < 0 →
       ∀ (ihr : Bool) (rest : List Message),
         walkMessages ctxEx spEx 0 true ihr (msgMine :: rest) =
           ⟨1, 0, 0, 0, none⟩)) :=
  ⟨by decide, by decide, by decide,
   self_message_halts_walk ctxEx spEx 0 true msgMine [] [msgOld]
     (by decide) (by decide) (by decide)⟩

/-- C7: for an actionable message under `unanswered_only`, exactly one
reaction-listing call is issued for it; the item is discarded iff the call
succeeds and some listed reaction's author is the caller; a failing
reaction call keeps the item (fail-open) and the failure does not
propagate. -/
theorem reaction_check_gate (ctx : Ctx) (sp : SpInfo) (cutoff : Int)
    (impl : Bool) (m : Message) (f : Found)
    (hu : ctx.unanswered_only = true)
    (hin : ¬ parseTime m.createTime < cutoff)
    (hnotme : (m.senderName == ctx.my_id) = false)
    (hf : analyzeMessage ctx m impl false = some f) :
    (walkMessages ctx sp cutoff impl false [m]).reaction_calls = 1 ∧
    ((walkMessages ctx sp cutoff impl false [m]).item = none ↔
      ∃ rs, ctx.listReactions m.name = Except.ok rs ∧
        rs.any (fun r => r.userName == ctx.my_id) = true) ∧
    (∀ e, ctx.listReactions m.name = Except.error e →
      (walkMessages ctx sp cutoff impl false [m]).item =
        some (mkItem ctx sp m f)) := by
  cases hr : ctx.listReactions m.name with
  | error e =>
    have hw : walkMessages ctx sp cutoff impl false [m] =
        ⟨1, 1, 1, 1, some (mkItem ctx sp m f)⟩ := by
      rw [walkMessages, if_neg hin, hnotme]
      rw [if_neg (by simp), hf]
      dsimp only
      rw [if_pos hu, hr]
    refine ⟨by rw [hw], ?_, ?_⟩
    · rw [hw]
      constructor
      · intro h; exact Option.noConfusion h
      · rintro ⟨rs, hok, -⟩
        exact Except.noConfusion hok
    · intro e1 _
      rw [hw]
  | ok rs =>
    by_cases hany : (rs.any fun r => r.userName == ctx.my_id) = true
    · have hw : walkMessages ctx sp cutoff impl false [m] =
          ⟨1, 1, 0, 1, none⟩ := by
        rw [walkMessages, if_neg hin, hnotme]
        rw [if_neg (by simp), hf]
        dsimp only
        rw [if_pos hu, hr]
        dsimp only
        rw [if_pos hany]
        rfl
      refine ⟨by rw [hw], ?_, ?_⟩
      · rw [hw]
        exact ⟨fun _ => ⟨rs, rfl, hany⟩, fun _ => rfl⟩
      · intro e1 he
        exact Except.noConfusion he
    · have hw : walkMessages ctx sp cutoff impl false [m] =
          ⟨1, 1, 1, 1, some (mkItem ctx sp m f)⟩ := by
        rw [walkMessages, if_neg hin, hnotme]
        rw [if_neg (by simp), hf]
        dsimp only
        rw [if_pos hu, hr]
        dsimp only
        rw [if_neg hany]
      refine ⟨by rw [hw], ?_, ?_⟩
      · rw [hw]
        constructor
        · intro h; exact Option.noConfusion h
        · rintro ⟨rs2, hok, hany2⟩
          injection hok with hok
          rw [← hok] at hany2
          exact absurd hany2 hany
      · intro e1 he
        exact Except.noConfusion he

/-- Witness for `reaction_check_gate` at the concrete unanswered message
of the small direct message. -/
theorem reaction_check_gate_witness :
    ctxEx.unanswered_only = true ∧
    (¬ parseTime msgBob.createTime < 0) ∧
    (msgBob.senderName == ctxEx.my_id) = false ∧
    analyzeMessage ctxEx msgBob true false =
      some ⟨"Inferred", "Unreplied message"⟩ ∧
    ((walkMessages ctxEx spEx 0 true false [msgBob]).reaction_calls = 1 ∧
     ((walkMessages ctxEx spEx 0 true false [msgBob]).item = none ↔
       ∃ rs, ctxEx.listReactions msgBob.name = Except.ok rs ∧
         rs.any (fun r => r.userName == ctxEx.my_id) = true) ∧
     (∀ e, ctxEx.listReactions msgBob.name = Except.error e →
       (walkMessages ctxEx spEx 0 true false [msgBob]).item =
         some (mkItem ctxEx spEx msgBob ⟨"Inferred", "Unreplied message"⟩))) :=
  ⟨by decide, by decide, by decide, by decide,
   reaction_check_gate ctxEx spEx 0 true msgBob ⟨"Inferred", "Unreplied message"⟩
     (by decide) (by decide) (by decide) (by decide)⟩

/-- The candidate the two-person direct message becomes. -/
def candDM : Candidate := ⟨spDM, 2, nowEx - 100, 14, 0⟩

/-- The scan context with identity resolution failed. -/
def ctxNoId : Ctx := { ctxEx with my_id := none }

/-- The scan context whose message-list call always raises. -/
def ctxErr : Ctx := { ctxEx with listMessages := fun _ _ => Except.error () }

/-- C8: when identity resolution failed (`my_id` unknown), a candidate
space whose member count is at most the implicit threshold is skipped
without raising: its stat record (still all-zero) is recorded at its place
in the loop, no message fetch happens for it, and it contributes no item. -/
theorem identity_failure_skips_implicit (ctx : Ctx) (now : Int)
    (limit mlimit n t : Nat) (c : Candidate) (rest : List Candidate)
    (hid : ctx.my_id = none)
    (hm : c.members ≤ ctx.implicit_mention_threshold)
    (hl : n < limit) (ht : t < mlimit) :
    scanSpace ctx now c = ⟨baseStat c, none, 0, 0⟩ ∧
    (scanLoop ctx now limit mlimit n t (c :: rest)).stats.head? =
      some (baseStat c) ∧
    (scanLoop ctx now limit mlimit n t (c :: rest)).items =
      (scanLoop ctx now limit mlimit (n + 1) t rest).items := by
  have hss : scanSpace ctx now c = ⟨baseStat c, none, 0, 0⟩ := by
    unfold scanSpace
    rw [if_pos]
    rw [hid]
    simp [hm, pyFalsy]
  refine ⟨hss, ?_, ?_⟩
  · rw [scanLoop, if_neg (by omega), if_neg (by omega)]
    simp [hss]
  · rw [scanLoop, if_neg (by omega), if_neg (by omega)]
    simp [hss, baseStat]

/-- Witness for `identity_failure_skips_implicit` at the concrete
direct-message candidate with identity resolution failed. -/
theorem identity_failure_skips_implicit_witness :
    ctxNoId.my_id = none ∧
    candDM.members ≤ ctxNoId.implicit_mention_threshold ∧
    (0 : Nat) < 20 ∧ (0 : Nat) < 100 ∧
    (scanSpace ctxNoId nowEx candDM = ⟨baseStat candDM, none, 0, 0⟩ ∧
     (scanLoop ctxNoId nowEx 20 100 0 0 [candDM]).stats.head? =
       some (baseStat candDM) ∧
     (scanLoop ctxNoId nowEx 20 100 0 0 [candDM]).items =
       (scanLoop ctxNoId nowEx 20 100 1 0 []).items) :=
  ⟨rfl, by decide, by decide, by decide,
   identity_failure_skips_implicit ctxNoId nowEx 20 100 0 0 candDM []
     rfl (by decide) (by decide) (by decide)⟩

/-- C9: a failure of the message-list call for one candidate space is
caught: the space's partial (all-zero) stat record is still appended, no
item is emitted for it, and the loop continues identically on the
remaining candidates, so a single space's failure never aborts the scan. -/
theorem space_failure_isolated (ctx : Ctx) (now : Int)
    (limit mlimit n t : Nat) (c : Candidate) (rest : List Candidate) (e : Unit)
    (hguard : ¬(c.members ≤ ctx.implicit_mention_threshold ∧
      pyFalsy ctx.my_id = true))
    (hfe : ctx.listMessages c.space.name
        (if c.members ≤ ctx.implicit_mention_threshold then 1 else 20) =
        Except.error e)
    (hl : n < limit) (ht : t < mlimit) :
    scanSpace ctx now c = ⟨baseStat c, none, 1, 0⟩ ∧
    scanLoop ctx now limit mlimit n t (c :: rest) =
      ⟨baseStat c :: (scanLoop ctx now limit mlimit (n + 1) t rest).stats,
       (scanLoop ctx now limit mlimit (n + 1) t rest).items,
       (scanLoop ctx now limit mlimit (n + 1) t rest).total,
       (scanLoop ctx now limit mlimit (n + 1) t rest).exit_reason⟩ := by
  have hss : scanSpace ctx now c = ⟨baseStat c, none, 1, 0⟩ := by
    by_cases hm : c.members ≤ ctx.implicit_mention_threshold
    · rw [if_pos hm] at hfe
      have hpy : pyFalsy ctx.my_id = false := by
        cases hpv : pyFalsy ctx.my_id
        · rfl
        · exact absurd ⟨hm, hpv⟩ hguard
      unfold scanSpace
      simp [hm, hpy, hfe]
    · rw [if_neg hm] at hfe
      unfold scanSpace
      simp [hm, hfe]
  refine ⟨hss, ?_⟩
  rw [scanLoop, if_neg (by omega), if_neg (by omega)]
  simp [hss, baseStat]

/-- Witness for `space_failure_isolated` at the concrete direct-message
candidate under the always-failing message-list call. -/
theorem space_failure_isolated_witness :
    (¬(candDM.members ≤ ctxErr.implicit_mention_threshold ∧
       pyFalsy ctxErr.my_id = true)) ∧
    ctxErr.listMessages candDM.space.name
      (if candDM.members ≤ ctxErr.implicit_mention_threshold then 1 else 20) =
      Except.error () ∧
    (0 : Nat) < 20 ∧ (0 : Nat) < 100 ∧
    (scanSpace ctxErr nowEx candDM = ⟨baseStat candDM, none, 1, 0⟩ ∧
     scanLoop ctxErr nowEx 20 100 0 0 [candDM] =
       ⟨baseStat candDM :: (scanLoop ctxErr nowEx 20 100 1 0 []).stats,
        (scanLoop ctxErr nowEx 20 100 1 0 []).items,
        (scanLoop ctxErr nowEx 20 100 1 0 []).total,
        (scanLoop ctxErr nowEx 20 100 1 0 []).exit_reason⟩) :=
  ⟨by decide, rfl, by decide, by decide,
   space_failure_isolated ctxErr nowEx 20 100 0 0 candDM [] ()
     (by decide) rfl (by decide) (by decide)⟩

theorem scanSpace_messages_le (ctx : Ctx) (now : Int) (c : Candidate)
    (hps : ∀ s k msgs, ctx.listMessages s k = Except.ok msgs → msgs.length ≤ k) :
    (scanSpace ctx now c).stat.messages_scanned ≤ 20 ∧
    (c.members ≤ ctx.implicit_mention_threshold →
      (scanSpace ctx now c).stat.messages_scanned ≤ 1) := by
  unfold scanSpace
  dsimp only
  by_cases hg : (decide (c.members ≤ ctx.implicit_mention_threshold) &&
      pyFalsy ctx.my_id) = true
  · rw [if_pos hg]
    exact ⟨by simp [baseStat], fun _ => by simp [baseStat]⟩
  · rw [if_neg hg]
    cases heq : ctx.listMessages c.space.name
        (if decide (c.members ≤ ctx.implicit_mention_threshold) = true then 1
         else 20) with
    | error e => exact ⟨by simp [baseStat], fun _ => by simp [baseStat]⟩
    | ok msgs =>
      have hlen := hps _ _ _ heq
      by_cases hm : c.members ≤ ctx.implicit_mention_threshold
      · rw [if_pos (by simpa using hm)] at hlen
        exact ⟨by dsimp only; omega, fun _ => by dsimp only; omega⟩
      · rw [if_neg (by simpa using hm)] at hlen
        exact ⟨by dsimp only; omega, fun hm2 => absurd hm2 hm⟩

theorem scanLoop_total_le (ctx : Ctx) (now : Int) (limit mlimit : Nat)
    (h20 : ∀ c : Candidate, (scanSpace ctx now c).stat.messages_scanned ≤ 20) :
    ∀ (cands : List Candidate) (n t : Nat), t ≤ mlimit - 1 + 20 →
      (scanLoop ctx now limit mlimit n t cands).total ≤ mlimit - 1 + 20 := by
  intro cands
  induction cands with
  | nil => intro n t ht; simpa [scanLoop] using ht
  | cons c rest ih =>
    intro n t ht
    rw [scanLoop]
    split
    · simpa using ht
    · split
      · simpa using ht
      · next h2 =>
        dsimp only
        refine ih (n + 1) (t + (scanSpace ctx now c).stat.messages_scanned) ?_
        have := h20 c
        omega

/-- C10: the message budget is only checked before starting each space,
so (assuming the message-list call honours its page size) the final
`total_messages_scanned` can exceed `message_limit` by strictly less than
one fetch window: it is at most `message_limit - 1 + 20`; and an
implicit-size space contributes at most 1 message, since its fetch limit
is 1. -/
theorem message_budget_overshoot_bound (ctx : Ctx) (now : Int)
    (limit mlimit : Nat) (tiers : List Tier) (spaces : List Space)
    (c : Candidate)
    (hps : ∀ s k msgs, ctx.listMessages s k = Except.ok msgs → msgs.length ≤ k)
    (himp : c.members ≤ ctx.implicit_mention_threshold) :
    (getChatMentions ctx now limit mlimit
        tiers spaces).source.total_messages_scanned ≤ mlimit - 1 + 20 ∧
    (scanSpace ctx now c).stat.messages_scanned ≤ 1 := by
  constructor
  · exact scanLoop_total_le ctx now limit mlimit
      (fun c2 => (scanSpace_messages_le ctx now c2 hps).1)
      (orderedCandidates now tiers spaces) 0 0 (by omega)
  · exact (scanSpace_messages_le ctx now c hps).2 himp

/-- Witness for `message_budget_overshoot_bound` at the concrete scan with
the always-failing message-list call. -/
theorem message_budget_overshoot_bound_witness :
    (getChatMentions ctxErr nowEx 20 100
        defaultTiers [spDM]).source.total_messages_scanned ≤ 100 - 1 + 20 ∧
    (scanSpace ctxErr nowEx candDM).stat.messages_scanned ≤ 1 :=
  message_budget_overshoot_bound ctxErr nowEx 20 100 defaultTiers [spDM]
    candDM (fun _ _ _ h => Except.noConfusion h) (by decide)

/-- Number of messages one candidate space contributes to the global
message count. -/
def spaceMsgCount (ctx : Ctx) (now : Int) (c : Candidate) : Nat :=
  (scanSpace ctx now c).stat.messages_scanned

/-- The global message count accumulated after processing the first `k`
candidates of the list. -/
def prefixMsgSum (ctx : Ctx) (now : Int) (cands : List Candidate) (k : Nat) : Nat :=
  ((cands.take k).map (spaceMsgCount ctx now)).sum

theorem prefixMsgSum_zero (ctx : Ctx) (now : Int) (cands : List Candidate) :
    prefixMsgSum ctx now cands 0 = 0 := by
  simp [prefixMsgSum]

theorem prefixMsgSum_cons (ctx : Ctx) (now : Int) (c : Candidate)
    (rest : List Candidate) (j : Nat) :
    prefixMsgSum ctx now (c :: rest) (j + 1) =
      spaceMsgCount ctx now c + prefixMsgSum ctx now rest j := by
  simp [prefixMsgSum, List.take_succ_cons]

theorem scanLoop_exit_cases (ctx : Ctx) (now : Int) (limit mlimit : Nat) :
    ∀ (cands : List Candidate) (n t : Nat),
      ((scanLoop ctx now limit mlimit n t cands).exit_reason =
          "space_limit_reached" ↔
        ∃ k, k < cands.length ∧
          (∀ j, j < k → n + j < limit ∧
            t + prefixMsgSum ctx now cands j < mlimit) ∧
          limit ≤ n + k) ∧
      ((scanLoop ctx now limit mlimit n t cands).exit_reason =
          "message_limit_reached" ↔
        ∃ k, k < cands.length ∧
          (∀ j, j < k → n + j < limit ∧
            t + prefixMsgSum ctx now cands j < mlimit) ∧
          n + k < limit ∧ mlimit ≤ t + prefixMsgSum ctx now cands k) ∧
      ((scanLoop ctx now limit mlimit n t cands).exit_reason = "completed" ↔
        ∀ k, k < cands.length → n + k < limit ∧
          t + prefixMsgSum ctx now cands k < mlimit) := by
  intro cands
  induction cands with
  | nil =>
    intro n t
    have he : (scanLoop ctx now limit mlimit n t []).exit_reason = "completed" := rfl
    rw [he]
    refine ⟨?_, ?_, ?_⟩
    · constructor
      · intro h; exact absurd h (by decide)
      · rintro ⟨k, hk, -, -⟩; simp at hk
    · constructor
      · intro h; exact absurd h (by decide)
      · rintro ⟨k, hk, -, -⟩; simp at hk
    · constructor
      · intro _ k hk; simp at hk
      · intro _; rfl
  | cons c rest ih =>
    intro n t
    by_cases h1 : limit ≤ n
    · have he : (scanLoop ctx now limit mlimit n t (c :: rest)).exit_reason =
          "space_limit_reached" := by
        rw [scanLoop, if_pos h1]
      rw [he]
      refine ⟨?_, ?_, ?_⟩
      · constructor
        · intro _
          exact ⟨0, by simp, fun j hj => absurd hj (Nat.not_lt_zero j), by omega⟩
        · intro _; rfl
      · constructor
        · intro h; exact absurd h (by decide)
        · rintro ⟨k, hk, hall, hklim, -⟩
          rcases Nat.eq_zero_or_pos k with rfl | hkpos
          · omega
          · have := (hall 0 hkpos).1
            omega
      · constructor
        · intro h; exact absurd h (by decide)
        · intro hall
          have := (hall 0 (by simp)).1
          omega
    · by_cases h2 : mlimit ≤ t
      · have he : (scanLoop ctx now limit mlimit n t (c :: rest)).exit_reason =
            "message_limit_reached" := by
          rw [scanLoop, if_neg h1, if_pos h2]
        rw [he]
        refine ⟨?_, ?_, ?_⟩
        · constructor
          · intro h; exact absurd h (by decide)
          · rintro ⟨k, hk, hall, hklim⟩
            rcases Nat.eq_zero_or_pos k with rfl | hkpos
            · omega
            · have h0 := (hall 0 hkpos).2
              rw [prefixMsgSum_zero] at h0
              omega
        · constructor
          · intro _
            refine ⟨0, by simp, fun j hj => absurd hj (Nat.not_lt_zero j),
              by omega, ?_⟩
            rw [prefixMsgSum_zero]
            omega
          · intro _; rfl
        · constructor
          · intro h; exact absurd h (by decide)
          · intro hall
            have h0 := (hall 0 (by simp)).2
            rw [prefixMsgSum_zero] at h0
            omega
      · have he : (scanLoop ctx now limit mlimit n t (c :: rest)).exit_reason =
            (scanLoop ctx now limit mlimit (n + 1)
              (t + spaceMsgCount ctx now c) rest).exit_reason := by
          rw [scanLoop, if_neg h1, if_neg h2]
          rfl
        rw [he]
        obtain ⟨ihA, ihB, ihC⟩ := ih (n + 1) (t + spaceMsgCount ctx now c)
        refine ⟨?_, ?_, ?_⟩
        · rw [ihA]
          constructor
          · rintro ⟨k, hk, hall, hklim⟩
            refine ⟨k + 1, by simp only [List.length_cons]; omega, ?_, by omega⟩
            intro j hj
            cases j with
            | zero =>
              refine ⟨by omega, ?_⟩
              rw [prefixMsgSum_zero]
              omega
            | succ i =>
              have hi := hall i (by omega)
              rw [prefixMsgSum_cons]
              exact ⟨by omega, by omega⟩
          · rintro ⟨k, hk, hall, hklim⟩
            cases k with
            | zero => omega
            | succ i =>
              refine ⟨i, by simp only [List.length_cons] at hk; omega, ?_, by omega⟩
              intro j hj
              have hj1 := hall (j + 1) (by omega)
              rw [prefixMsgSum_cons] at hj1
              exact ⟨by omega, by omega⟩
        · rw [ihB]
          constructor
          · rintro ⟨k, hk, hall, hklim, hsum⟩
            refine ⟨k + 1, by simp only [List.length_cons]; omega, ?_, by omega, ?_⟩
            · intro j hj
              cases j with
              | zero =>
                refine ⟨by omega, ?_⟩
                rw [prefixMsgSum_zero]
                omega
              | succ i =>
                have hi := hall i (by omega)
                rw [prefixMsgSum_cons]
                exact ⟨by omega, by omega⟩
            · rw [prefixMsgSum_cons]
              omega
          · rintro ⟨k, hk, hall, hklim, hsum⟩
            cases k with
            | zero =>
              rw [prefixMsgSum_zero] at hsum
              omega
            | succ i =>
              rw [prefixMsgSum_cons] at hsum
              refine ⟨i, by simp only [List.length_cons] at hk; omega, ?_,
                by omega, by omega⟩
              intro j hj
              have hj1 := hall (j + 1) (by omega)
              rw [prefixMsgSum_cons] at hj1
              exact ⟨by omega, by omega⟩
        · rw [ihC]
          constructor
          · intro hall k hk
            cases k with
            | zero =>
              refine ⟨by omega, ?_⟩
              rw [prefixMsgSum_zero]
              omega
            | succ i =>
              have hi := hall i (by simp only [List.length_cons] at hk; omega)
              rw [prefixMsgSum_cons]
              exact ⟨by omega, by omega⟩
          · intro hall k hk
            have hk1 := hall (k + 1) (by simp only [List.length_cons]; omega)
            rw [prefixMsgSum_cons] at hk1
            exact ⟨by omega, by omega⟩

/-- C2: the scan's `exit_reason` is "space_limit_reached" iff the
candidate loop stopped because the number of spaces already scanned had
reached the space limit while candidates remained; it is
"message_limit_reached" iff the loop stopped (with the space limit not yet
reached, the space check taking priority) because the global message count
had reached the message limit while candidates remained; otherwise it is
"completed". -/
theorem exit_reason_characterization (ctx : Ctx) (now : Int)
    (limit mlimit : Nat) (tiers : List Tier) (spaces : List Space) :
    ((getChatMentions ctx now limit mlimit tiers spaces).source.exit_reason =
        "space_limit_reached" ↔
      ∃ k, k < (orderedCandidates now tiers spaces).length ∧
        (∀ j, j < k → j < limit ∧
          prefixMsgSum ctx now (orderedCandidates now tiers spaces) j < mlimit) ∧
        limit ≤ k) ∧
    ((getChatMentions ctx now limit mlimit tiers spaces).source.exit_reason =
        "message_limit_reached" ↔
      ∃ k, k < (orderedCandidates now tiers spaces).length ∧
        (∀ j, j < k → j < limit ∧
          prefixMsgSum ctx now (orderedCandidates now tiers spaces) j < mlimit) ∧
        k < limit ∧
        mlimit ≤ prefixMsgSum ctx now (orderedCandidates now tiers spaces) k) ∧
    ((getChatMentions ctx now limit mlimit tiers spaces).source.exit_reason =
        "completed" ↔
      ∀ k, k < (orderedCandidates now tiers spaces).length →
        k < limit ∧
        prefixMsgSum ctx now (orderedCandidates now tiers spaces) k < mlimit) := by
  have hdef : (getChatMentions ctx now limit mlimit tiers spaces).source.exit_reason =
      (scanLoop ctx now limit mlimit 0 0
        (orderedCandidates now tiers spaces)).exit_reason := rfl
  rw [hdef]
  have h := scanLoop_exit_cases ctx now limit mlimit
    (orderedCandidates now tiers spaces) 0 0
  simpa using h

end Gwsa
